import Mathlib

/-!
Verification development for the paginated, deduplicated, filtered/sorted
incremental data-fetching component of a conversations-manager browser
extension. The definitions below are a shallow embedding of the JavaScript
source: `PaginatedDataFetcher` (the generic fetcher), `FetchSettings`,
`ConversationsManager` (collection, selection, search, load-more/refresh
with debounce and fetch-session ids) and the bulk delete/archive operations
of `ActionsManager`. Asynchronous operations are split at their await
points into atomic phases; a trace is a list of events applied by `step`.
-/

set_option maxRecDepth 10000

namespace ConvMgr

/-! ## String helpers (JS String.prototype.includes, localeCompare) -/

/-- Character-list test: the first list occurs at the start of the second. -/
def charsAtStart : List Char → List Char → Bool
  | [], _ => true
  | _ :: _, [] => false
  | a :: as, b :: bs => a == b && charsAtStart as bs

/-- Character-list substring test, on which the JS includes test is modelled. -/
def charsHasSub (pat : List Char) : List Char → Bool
  | [] => charsAtStart pat []
  | b :: bs => charsAtStart pat (b :: bs) || charsHasSub pat bs

/-- JS "hay.includes(pat)". -/
def strHasSub (hay pat : String) : Bool :=
  charsHasSub pat.data hay.data

/-- JS String.prototype.trim. -/
def strTrim (s : String) : String :=
  String.mk (((s.data.dropWhile Char.isWhitespace).reverse.dropWhile Char.isWhitespace).reverse)

/-- JS String.prototype.toLowerCase. -/
def strLower (s : String) : String :=
  String.mk (s.data.map Char.toLower)

/-- Lexicographic character comparison. -/
def charsCmp : List Char → List Char → Int
  | [], [] => 0
  | [], _ :: _ => -1
  | _ :: _, [] => 1
  | a :: as, b :: bs => if a < b then -1 else if b < a then 1 else charsCmp as bs

/-- Model of JS localeCompare as used for title tie-breaking. -/
def localeCompare (a b : String) : Int :=
  charsCmp a.data b.data

/-! ## Records: raw API items and domain Conversations -/

/-- Raw item as returned by the remote listing API. -/
structure RawConversation where
  id : String
  title : String
  create_time : Int
  update_time : Int
  is_archived : Bool
deriving DecidableEq

/-- Domain record built by the Conversation constructor in the source. -/
structure Conversation where
  id : String
  title : String
  date : Int
  updateTime : Int
  status : String
  isNew : Bool
  isRecentlyModified : Bool
deriving DecidableEq

def msPerDay : Int := 24 * 60 * 60 * 1000

/-- ConversationsFetcher.transformItem / the Conversation constructor:
maps a raw item to a Conversation, computing the derived recency flags
relative to the fixed instant `tnow`. -/
def transformItem (tnow : Int) (r : RawConversation) : Conversation :=
  { id := r.id
    title := if r.title = "" then "Untitled Conversation" else r.title
    date := r.create_time
    updateTime := r.update_time
    status := if r.is_archived then "archived" else "active"
    isNew := decide (tnow - r.create_time < msPerDay)
    isRecentlyModified := decide (tnow - r.update_time < msPerDay) }

/-! ## PaginatedDataFetcher -/

/-- Mutable state of a PaginatedDataFetcher: the seen-id set and the
hasMore flag. -/
structure FetcherState where
  seenItems : List String
  hasMore : Bool
deriving DecidableEq

/-- PaginatedDataFetcher.clearSeenItems. -/
def clearSeenItems (_st : FetcherState) : FetcherState :=
  { seenItems := [], hasMore := true }

/-- PaginatedDataFetcher.hasMoreItems. -/
def hasMoreItems (st : FetcherState) : Bool := st.hasMore

variable {ι ρ : Type}

/-- One page of the remote listing (makeRequest): items `offset` through
`offset + limit - 1` of the backing data. Fewer items than `limit`
signals the end of the data. -/
def page (remote : List ρ) (offset limit : Nat) : List ρ :=
  (remote.drop offset).take limit

/-- PaginatedDataFetcher.passesFiltersGeneric: true iff the item passes
every filter (the empty filter set admits everything). -/
def passesFiltersGeneric (item : ι) (filters : List (ι → Bool)) : Bool :=
  filters.all (fun f => f item)

/-- PaginatedDataFetcher.parseAndFilterItemsGeneric: walk the items, stop
once `maxCount` items are collected, skip already-seen ids, and push an
item (marking its id seen) exactly when it passes every filter. Returns
the pushed items and the updated seen set. -/
def parseAndFilterItemsGeneric (getId : ι → String) :
    List ι → Nat → List (ι → Bool) → List String → List ι × List String
  | [], _, _, seen => ([], seen)
  | _ :: _, 0, _, seen => ([], seen)
  | item :: rest, maxCount + 1, filters, seen =>
    if getId item ∈ seen then
      parseAndFilterItemsGeneric getId rest (maxCount + 1) filters seen
    else if passesFiltersGeneric item filters then
      let next := parseAndFilterItemsGeneric getId rest maxCount filters (getId item :: seen)
      (item :: next.1, next.2)
    else
      parseAndFilterItemsGeneric getId rest (maxCount + 1) filters seen

/-- The comparator sortItemsGeneric builds from the list of sort
functions: the first comparator returning non-zero decides, ties fall
through to the next. -/
def chainCmp (fns : List (ι → ι → Int)) (a b : ι) : Int :=
  match fns with
  | [] => 0
  | f :: rest =>
    let c := f a b
    if c ≠ 0 then c else chainCmp rest a b

/-- Insertion into a list sorted by a JS-style comparator, placing the new
element before the first element it does not compare after (stable). -/
def sortedInsert (cmp : ι → ι → Int) (x : ι) : List ι → List ι
  | [] => [x]
  | y :: ys => if cmp x y ≤ 0 then x :: y :: ys else y :: sortedInsert cmp x ys

/-- Model of the stable JS Array.prototype.sort with a consistent
comparator. -/
def stableSort (cmp : ι → ι → Int) (l : List ι) : List ι :=
  l.foldr (sortedInsert cmp) []

/-- PaginatedDataFetcher.sortItemsGeneric. -/
def sortItemsGeneric (items : List ι) (sortFns : List (ι → ι → Int)) : List ι :=
  if sortFns.isEmpty then items else stableSort (chainCmp sortFns) items

/-- The page-collection loop of fetchAllAndSort: keep fetching full pages,
accumulating every (transformed) item; an empty or short page sets
hasMore to false and stops. `fuel` bounds the recursion and is always
instantiated large enough for the loop to reach a short page. -/
def collectAllPages (remote : List ρ) (transform : ρ → ι) (fetchLimit : Nat) :
    Nat → Nat → List ι → Bool → List ι × Bool
  | 0, _, acc, hm => (acc, hm)
  | fuel + 1, offset, acc, hm =>
    let items := (page remote offset fetchLimit).map transform
    if items.length = 0 then (acc, false)
    else if items.length < fetchLimit then (acc ++ items, false)
    else collectAllPages remote transform fetchLimit fuel (offset + fetchLimit) (acc ++ items) hm

/-- PaginatedDataFetcher.fetchAllAndSort: collect every remaining page,
sort the whole set with the comparator chain, then admit and filter in
sorted order up to `targetCount`. -/
def fetchAllAndSort (getId : ι → String) (transform : ρ → ι) (remote : List ρ) (fuel : Nat)
    (targetCount : Nat) (filters : List (ι → Bool)) (sortFns : List (ι → ι → Int))
    (fetchLimit : Nat) (st : FetcherState) : List ι × FetcherState :=
  let collected := collectAllPages remote transform fetchLimit fuel 0 [] st.hasMore
  let sortedItems := sortItemsGeneric collected.1 sortFns
  let parsed := parseAndFilterItemsGeneric getId sortedItems targetCount filters st.seenItems
  (parsed.1, { seenItems := parsed.2, hasMore := collected.2 })

/-- The loop of fetchIncremental, with the remaining target count made
explicit: fetch a page, admit and filter it against the remaining
target, and continue while new items are still needed and the page was
full. An empty page or a short page sets hasMore to false and stops. -/
def fetchIncrementalLoop (getId : ι → String) (transform : ρ → ι) (remote : List ρ)
    (filters : List (ι → Bool)) (fetchLimit : Nat) :
    Nat → Nat → Nat → FetcherState → List ι × FetcherState
  | 0, _, _, st => ([], st)
  | _ + 1, _, 0, st => ([], st)
  | fuel + 1, offset, rem + 1, st =>
    let items := (page remote offset fetchLimit).map transform
    if items.length = 0 then ([], { st with hasMore := false })
    else
      let parsed := parseAndFilterItemsGeneric getId items (rem + 1) filters st.seenItems
      let st' : FetcherState := { st with seenItems := parsed.2 }
      if items.length < fetchLimit then (parsed.1, { st' with hasMore := false })
      else
        let next := fetchIncrementalLoop getId transform remote filters fetchLimit fuel
          (offset + fetchLimit) (rem + 1 - parsed.1.length) st'
        (parsed.1 ++ next.1, next.2)

/-- PaginatedDataFetcher.fetchIncremental. -/
def fetchIncremental (getId : ι → String) (transform : ρ → ι) (remote : List ρ) (fuel : Nat)
    (targetCount : Nat) (filters : List (ι → Bool)) (fetchLimit : Nat) (st : FetcherState) :
    List ι × FetcherState :=
  fetchIncrementalLoop getId transform remote filters fetchLimit fuel 0 targetCount st

/-- The per-request limit: "apiLimit || targetCount" (a null or zero
apiLimit falls back to targetCount). -/
def resolveFetchLimit (targetCount : Nat) (apiLimit : Option Nat) : Nat :=
  match apiLimit with
  | some l => if l = 0 then targetCount else l
  | none => targetCount

/-- PaginatedDataFetcher.fetchPaginatedData: dispatch to collect-all mode
when sort functions are present, incremental mode otherwise. -/
def fetchPaginatedData (getId : ι → String) (transform : ρ → ι) (remote : List ρ) (fuel : Nat)
    (targetCount : Nat) (apiLimit : Option Nat) (filters : List (ι → Bool))
    (sortFns : List (ι → ι → Int)) (st : FetcherState) : List ι × FetcherState :=
  let fetchLimit := resolveFetchLimit targetCount apiLimit
  if sortFns.length > 0 then
    fetchAllAndSort getId transform remote fuel targetCount filters sortFns fetchLimit st
  else
    fetchIncremental getId transform remote fuel targetCount filters fetchLimit st

/-- The deduplicator admit step distilled from
parseAndFilterItemsGeneric: with no filters, a single unseen item is
returned (true) and its id marked seen; a seen item is skipped (false)
with no mutation. -/
def admitItem (getId : ι → String) (st : FetcherState) (item : ι) : Bool × FetcherState :=
  let parsed := parseAndFilterItemsGeneric getId [item] 1 [] st.seenItems
  (!parsed.1.isEmpty, { st with seenItems := parsed.2 })

/-- A sequence of admit calls, keeping the final state. -/
def runAdmits (getId : ι → String) (st : FetcherState) (items : List ι) : FetcherState :=
  items.foldl (fun s it => (admitItem getId s it).2) st

/-- One fetchPaginatedData request (its arguments). -/
structure FetchReq (ρ ι : Type) where
  remote : List ρ
  fuel : Nat
  targetCount : Nat
  apiLimit : Option Nat
  filters : List (ι → Bool)
  sortFns : List (ι → ι → Int)

/-- A sequence of fetchPaginatedData calls against one fetcher, returning
everything handed back to the caller and the final fetcher state. -/
def runFetches (getId : ι → String) (transform : ρ → ι) :
    List (FetchReq ρ ι) → FetcherState → List ι × FetcherState
  | [], st => ([], st)
  | r :: rs, st =>
    let out := fetchPaginatedData getId transform r.remote r.fuel r.targetCount r.apiLimit
      r.filters r.sortFns st
    let rest := runFetches getId transform rs out.2
    (out.1 ++ rest.1, rest.2)

/-! ## FetchSettings -/

/-- FetchSettings.getFilters: one predicate per active filter name, in the
insertion order of the source. -/
def getFilters (activeFilters : List String) : List (Conversation → Bool) :=
  (if "new" ∈ activeFilters then [fun c => c.isNew] else []) ++
  (if "updated" ∈ activeFilters then [fun c => c.isRecentlyModified] else []) ++
  (if "other" ∈ activeFilters then [fun c => !c.isNew && !c.isRecentlyModified] else [])

/-- FetchSettings.getSortFunctions: the comparator chain for each sort
key; an unrecognized key yields no comparators (the switch has no
default case). -/
def getSortFunctions (sortBy : String) : List (Conversation → Conversation → Int) :=
  if sortBy = "created" then
    [fun a b => b.date - a.date, fun a b => localeCompare a.title b.title]
  else if sortBy = "modified" then
    [fun a b => b.updateTime - a.updateTime, fun a b => localeCompare a.title b.title]
  else if sortBy = "name" then
    [fun a b => localeCompare a.title b.title, fun a b => b.date - a.date]
  else []

/-! ## ConversationsManager -/

inductive PendingKind where
  | forLoadMore
  | forRefresh
deriving DecidableEq

/-- An in-flight fetch orchestration tagged with its fetch-session id. -/
structure PendingFetch where
  kind : PendingKind
  fid : Nat
deriving DecidableEq

/-- The ConversationsManager state. `pending` holds the fetch in flight
(if any); `nextFetchId` models the freshness of crypto.randomUUID;
`fetchCount` counts the fetch orchestrations issued and
`executedRefreshes` records each performRefresh execution that passed
the isLoading guard, with the time and the filters it ran with. -/
structure MgrState where
  conversations : List (String × Conversation)
  selectedConversations : List String
  batchSize : Nat
  sortBy : String
  activeFilters : List String
  managerSortBy : String
  isLoading : Bool
  currentFetchId : Option Nat
  nextFetchId : Nat
  lastRefreshTime : Nat
  debounceTimeout : Option Nat
  conversationsDisplayed : Nat
  currentSearchTerm : String
  fetcher : FetcherState
  pending : Option PendingFetch
  fetchCount : Nat
  executedRefreshes : List (Nat × List String)
deriving DecidableEq

def debounceDelay : Nat := 500

/-- ConversationsManager.searchConversations: case-insensitive substring
match of the term against title and id of the fetched records, then
truncation to the display cap (conversationsDisplayed, falling back to
batchSize, falling back to 20). -/
def searchConversations (st : MgrState) (searchString : String) : List Conversation :=
  let allConvs :=
    if strTrim searchString = "" then st.conversations.map Prod.snd
    else
      let searchTerm := strTrim (strLower searchString)
      (st.conversations.map Prod.snd).filter
        (fun c => strHasSub (strLower c.title) searchTerm || strHasSub (strLower c.id) searchTerm)
  let limit :=
    if st.conversationsDisplayed ≠ 0 then st.conversationsDisplayed
    else if st.batchSize ≠ 0 then st.batchSize else 20
  allConvs.take limit

/-- JS Map.set keyed by the record id: overwrite in place when the key
exists, append otherwise. -/
def mapSetC (m : List (String × Conversation)) (c : Conversation) :
    List (String × Conversation) :=
  if c.id ∈ m.map Prod.fst then
    m.map (fun p => if p.1 = c.id then (c.id, c) else p)
  else m ++ [(c.id, c)]

/-- Merging fetched records into the conversations map, in order. -/
def mergeConversations (m : List (String × Conversation)) (l : List Conversation) :
    List (String × Conversation) :=
  l.foldl mapSetC m

/-- ConversationsManager.sortConversations: sort the values with the
comparator chain of the current sort key and rebuild the map in sorted
order. -/
def sortConversationsFn (st : MgrState) : MgrState :=
  let arr := stableSort (chainCmp (getSortFunctions st.sortBy)) (st.conversations.map Prod.snd)
  { st with conversations := mergeConversations [] arr }

/-- ConversationsManager.clearState. -/
def clearStateFn (st : MgrState) : MgrState :=
  { st with conversations := [], selectedConversations := [],
            conversationsDisplayed := 0, fetcher := clearSeenItems st.fetcher }

/-- JS Set.add. -/
def setAdd (s : List String) (x : String) : List String :=
  if x ∈ s then s else s ++ [x]

/-- ConversationsManager.selectAllConversations: clear the selection, then
add the id of every record in the current searched view. -/
def selectAllConversations (st : MgrState) : MgrState :=
  let view := searchConversations st st.currentSearchTerm
  { st with selectedConversations := view.foldl (fun s c => setAdd s c.id) [] }

/-- ConversationsManager.deselectAllConversations. -/
def deselectAllConversations (st : MgrState) : MgrState :=
  { st with selectedConversations := [] }

/-- ConversationsManager.toggleConversationSelection. -/
def toggleConversationSelection (st : MgrState) (cid : String) : MgrState :=
  if cid ∈ st.selectedConversations then
    { st with selectedConversations := st.selectedConversations.filter (fun s => s ≠ cid) }
  else
    { st with selectedConversations := st.selectedConversations ++ [cid] }

/-- ConversationsManager.areAllConversationsSelected: the current view is
non-empty and every record in it is selected. -/
def areAllConversationsSelected (st : MgrState) : Bool :=
  let view := searchConversations st st.currentSearchTerm
  decide (view.length > 0) && view.all (fun c => decide (c.id ∈ st.selectedConversations))

/-- ConversationsManager.hasMore: the fetcher has more, or (fetcher
exhausted) the searched view shows fewer records than are loaded. -/
def hasMoreCheck (st : MgrState) : Bool :=
  if st.fetcher.hasMore then true
  else decide ((searchConversations st st.currentSearchTerm).length < st.conversations.length)

/-- The synchronous prefix of ConversationsManager.loadMore, up to the
awaits: the hasMore and isLoading guards, the display-expansion branch,
and otherwise issuing a tagged fetch (isLoading set, a fresh fetch id
made current, the orchestration now pending). -/
def loadMoreStart (st : MgrState) : MgrState :=
  if hasMoreCheck st = false then st
  else if st.isLoading then st
  else
    let displayed := (searchConversations st st.currentSearchTerm).length
    let totalLoaded := st.conversations.length
    if st.fetcher.hasMore = false ∧ displayed < totalLoaded then
      { st with conversationsDisplayed := min (displayed + st.batchSize) totalLoaded }
    else
      { st with isLoading := true,
                currentFetchId := some st.nextFetchId,
                nextFetchId := st.nextFetchId + 1,
                pending := some ⟨PendingKind.forLoadMore, st.nextFetchId⟩,
                fetchCount := st.fetchCount + 1 }

/-- The synchronous prefix of ConversationsManager.performRefresh:
lastRefreshTime is updated first, then the isLoading guard returns
early; otherwise the refresh executes: state cleared, a fresh tagged
fetch issued, and the execution recorded with the filters in force. -/
def performRefreshStart (now : Nat) (st : MgrState) : MgrState :=
  let st := { st with lastRefreshTime := now }
  if st.isLoading then st
  else
    clearStateFn
      { st with isLoading := true,
                currentFetchId := some st.nextFetchId,
                nextFetchId := st.nextFetchId + 1,
                pending := some ⟨PendingKind.forRefresh, st.nextFetchId⟩,
                fetchCount := st.fetchCount + 1,
                executedRefreshes := st.executedRefreshes ++ [(now, st.activeFilters)] }

/-- ConversationsManager.refresh: within the debounce window of the last
refresh the call only (re)sets the pending timer, which fires at
lastRefreshTime + debounceDelay; otherwise any pending timer is cleared
and performRefresh runs at once. -/
def refreshCall (now : Nat) (st : MgrState) : MgrState :=
  if now - st.lastRefreshTime < debounceDelay then
    { st with debounceTimeout := some (st.lastRefreshTime + debounceDelay) }
  else
    performRefreshStart now { st with debounceTimeout := none }

/-- The debounce timer firing at its scheduled time. -/
def timerFire (now : Nat) (st : MgrState) : MgrState :=
  if st.debounceTimeout = some now then
    performRefreshStart now { st with debounceTimeout := none }
  else st

/-- The fetchPaginatedData call both loadMore and performRefresh issue:
target batchSize, null apiLimit, the filters and comparator chain of
the current settings, against the current fetcher state. -/
def fetchComputation (remote : List RawConversation) (tnow : Int) (st : MgrState) :
    List Conversation × FetcherState :=
  fetchPaginatedData (fun c => c.id) (transformItem tnow) remote (remote.length + 1)
    st.batchSize none (getFilters st.activeFilters) (getSortFunctions st.sortBy) st.fetcher

/-- Completion of the pending fetch: the fetcher state advances either
way; the results are applied (merged, cap updated for loadMore, map
re-sorted) only when the session id is still current, in which case the
finally block also releases the isLoading guard. -/
def completeFetch (remote : List RawConversation) (tnow : Int) (st : MgrState) : MgrState :=
  match st.pending with
  | none => st
  | some p =>
    let fetched := fetchComputation remote tnow st
    let stf := { st with fetcher := fetched.2, pending := none }
    if stf.currentFetchId = some p.fid then
      let merged := mergeConversations stf.conversations fetched.1
      let applied :=
        match p.kind with
        | PendingKind.forLoadMore =>
          sortConversationsFn
            { stf with conversations := merged,
                       conversationsDisplayed :=
                         min (stf.conversationsDisplayed + fetched.1.length) merged.length }
        | PendingKind.forRefresh =>
          sortConversationsFn { stf with conversations := merged }
      { applied with isLoading := false, currentFetchId := none }
    else stf

/-- ConversationsManager.updateSortBy: set the fetch-settings sort key and
locally re-sort the existing records (no fetch). -/
def updateSortByFn (v : String) (st : MgrState) : MgrState :=
  let st := { st with sortBy := v }
  if st.conversations.length > 0 then sortConversationsFn st else st

/-- ConversationsManager.setSortBy (the handler the sort UI invokes): set
the unused manager-level sortBy field and call refresh. -/
def setSortByCall (now : Nat) (v : String) (st : MgrState) : MgrState :=
  refreshCall now { st with managerSortBy := v }

/-- ConversationsManager.updateFilters: set the fetch-settings filters and
call refresh. -/
def updateFiltersCall (now : Nat) (filters : List String) (st : MgrState) : MgrState :=
  refreshCall now { st with activeFilters := filters }

/-- Atomic events of the single-threaded event loop: the synchronous
prefix of loadMore, the completion of the pending fetch, a refresh call,
the debounce timer firing, and the settings-change handlers. -/
inductive MEvent where
  | loadMore
  | complete
  | refresh (now : Nat)
  | fire (now : Nat)
  | updFilters (now : Nat) (filters : List String)
  | chgSortKey (now : Nat) (v : String)

def step (remote : List RawConversation) (tnow : Int) (st : MgrState) : MEvent → MgrState
  | MEvent.loadMore => loadMoreStart st
  | MEvent.complete => completeFetch remote tnow st
  | MEvent.refresh now => refreshCall now st
  | MEvent.fire now => timerFire now st
  | MEvent.updFilters now fs => updateFiltersCall now fs st
  | MEvent.chgSortKey now v => setSortByCall now v st

def run (remote : List RawConversation) (tnow : Int) (events : List MEvent) (st : MgrState) :
    MgrState :=
  events.foldl (step remote tnow) st

/-! ## ActionsManager bulk actions -/

/-- What a bulk action reports: the toast message, whether it succeeded,
and which per-id remote calls were actually issued (the sequential loop
stops at the first failure). -/
structure BulkReport where
  toast : String
  ok : Bool
  attempted : List String
deriving DecidableEq

/-- The per-id remote calls a sequential loop issues: every id up to and
including the first failing one. -/
def attemptCalls (remoteOk : String → Bool) : List String → List String
  | [] => []
  | cid :: rest => if remoteOk cid then cid :: attemptCalls remoteOk rest else [cid]

/-- ActionsManager.deleteConversations: issue one remote call per id in
order; if any fails the catch block reports a generic error and no local
state is touched; on full success remove the matching records from the
map and their ids from the selection. -/
def deleteConversations (remoteOk : String → Bool) (ids : List String) (st : MgrState) :
    MgrState × BulkReport :=
  if ids.all remoteOk then
    let removeIds := (st.conversations.map (fun p => p.2.id)).filter
      (fun cid => decide (cid ∈ ids))
    ({ st with
        conversations := st.conversations.filter (fun p => decide (p.1 ∉ removeIds)),
        selectedConversations :=
          st.selectedConversations.filter (fun s => decide (s ∉ removeIds)) },
     { toast := "Successfully deleted " ++ toString ids.length ++ " conversation(s)",
       ok := true, attempted := ids })
  else
    (st, { toast := "Failed to delete conversations", ok := false,
           attempted := attemptCalls remoteOk ids })

/-- ActionsManager.archiveConversations: issue one remote call per id in
order; if any fails the catch block reports a generic error and no local
state is touched; on full success set the status of the matching
records to archived and remove their ids from the selection. -/
def archiveConversations (remoteOk : String → Bool) (ids : List String) (st : MgrState) :
    MgrState × BulkReport :=
  if ids.all remoteOk then
    ({ st with
        conversations := st.conversations.map
          (fun p => if p.2.id ∈ ids then (p.1, { p.2 with status := "archived" }) else p),
        selectedConversations := st.selectedConversations.filter
          (fun s => decide (¬ (s ∈ ids ∧ s ∈ st.conversations.map (fun p => p.2.id)))) },
     { toast := "Successfully archived " ++ toString ids.length ++ " conversation(s)",
       ok := true, attempted := ids })
  else
    (st, { toast := "Failed to archive conversations", ok := false,
           attempted := attemptCalls remoteOk ids })

/-! ## Concrete instances used by the scenario theorems -/

/-- A fresh-constructor ConversationsManager state with the given batch
size and fetch-settings sort key. -/
def initState (batchSize : Nat) (sortBy : String) : MgrState :=
  { conversations := [], selectedConversations := [], batchSize := batchSize,
    sortBy := sortBy, activeFilters := [], managerSortBy := "",
    isLoading := false, currentFetchId := none, nextFetchId := 0,
    lastRefreshTime := 0, debounceTimeout := none,
    conversationsDisplayed := 0, currentSearchTerm := "",
    fetcher := { seenItems := [], hasMore := true }, pending := none,
    fetchCount := 0, executedRefreshes := [] }

/-- A raw remote record with a distinct id per index. -/
def mkRaw (i : Nat) : RawConversation :=
  { id := "c" ++ toString i, title := "t" ++ toString i,
    create_time := Int.ofNat i, update_time := Int.ofNat i, is_archived := false }

/-- An already-transformed record with the given id, used to populate
concrete manager states. -/
def convOf (s : String) : Conversation :=
  { id := s, title := "t" ++ s, date := 1, updateTime := 1, status := "active",
    isNew := false, isRecentlyModified := false }

/-- C1 scenario: a two-record remote source. -/
def c1Remote : List RawConversation := [mkRaw 0, mkRaw 1]

/-- C1 scenario: a fresh manager (batch size 2, incremental mode) right
after start() initialized the display cap. -/
def c1State : MgrState := { initState 2 "" with conversationsDisplayed := 2 }

/-- C2 scenario: three records A, B, C all loaded and selected. -/
def c2State : MgrState :=
  { initState 5 "" with
      conversations := [("A", convOf "A"), ("B", convOf "B"), ("C", convOf "C")],
      selectedConversations := ["A", "B", "C"] }

/-- C2 scenario: the remote mutation succeeds for every id except B. -/
def c2RemoteOk (s : String) : Bool := !(s == "B")

/-- C3 scenario: a fresh manager (lastRefreshTime = 0, as the constructor
sets it). -/
def c3State : MgrState := initState 5 ""

/-- C3 scenario: three refresh-triggering settings changes within 100ms of
each other, with completions and the debounce timer firing at its
scheduled time. -/
def c3Trace : List MEvent :=
  [MEvent.updFilters 1000 ["new"], MEvent.updFilters 1050 ["updated"],
   MEvent.updFilters 1100 ["other"], MEvent.complete, MEvent.fire 1500, MEvent.complete]

/-- C4 scenario: three raw records with createdAt values 3, 1, 2. -/
def c4Remote : List RawConversation :=
  [{ id := "a", title := "ta", create_time := 3, update_time := 3, is_archived := false },
   { id := "b", title := "tb", create_time := 1, update_time := 1, is_archived := false },
   { id := "c", title := "tc", create_time := 2, update_time := 2, is_archived := false }]

/-- C6 scenario: a remote source holding 45 matching records. -/
def c6Remote : List RawConversation := (List.range 45).map mkRaw

/-- C6 scenario: the state start() reaches just before its initial
loadMore: cleared state, display cap initialized to the batch size, and
a sort key outside the switch so that no sort comparators are built
(incremental mode, as the claim stipulates). -/
def c6Start : MgrState := { initState 20 "" with conversationsDisplayed := 20 }

/-- C6 scenario: the initial loadMore issued by start() followed by three
further loadMore calls, each awaited to completion. -/
def c6Trace : List MEvent :=
  [MEvent.loadMore, MEvent.complete, MEvent.loadMore, MEvent.complete,
   MEvent.loadMore, MEvent.complete, MEvent.loadMore, MEvent.complete]

/-- C7 scenario: ten records of which exactly two match the search term
"abc" in their ids. -/
def c7Convs : List (String × Conversation) :=
  (List.range 10).map (fun i =>
    let cid := (if i < 2 then "abc" else "zzz") ++ toString i
    (cid, convOf cid))

/-- C7 scenario: the manager showing those ten records with the active
search term "abc". -/
def c7State : MgrState :=
  { initState 20 "" with conversations := c7Convs, conversationsDisplayed := 10,
                         currentSearchTerm := "abc" }

/-- C8 scenario: one loaded record, no refresh in the last 500ms, sort key
"created" in the fetch settings. -/
def c8State : MgrState :=
  { initState 5 "created" with conversations := [("x", convOf "x")],
                               conversationsDisplayed := 5 }

/-- C8 witness state: two loaded records with aligned, duplicate-free
keys. -/
def c8WitnessState : MgrState :=
  { initState 5 "created" with
      conversations := [("x", convOf "x"), ("y", convOf "y")],
      conversationsDisplayed := 5 }

/-- C3 witness state: a fresh manager with batch size 7. -/
def c3WitnessState : MgrState := initState 7 ""

/-- C9 scenario: one record that is already archived, and selected. -/
def c9State : MgrState :=
  { initState 5 "" with
      conversations := [("A", { convOf "A" with status := "archived" })],
      selectedConversations := ["A"] }

/-- C9 witness state: one active and one archived record, both loaded,
one selected. -/
def c9WitnessState : MgrState :=
  { initState 5 "" with
      conversations := [("Z", convOf "Z"), ("W", { convOf "W" with status := "archived" })],
      selectedConversations := ["Z"] }

/-! ## Theorems -/

section Lemmas

variable {ι ρ : Type}

theorem parse_seen_iff (getId : ι → String) (filters : List (ι → Bool)) :
    ∀ (items : List ι) (maxCount : Nat) (seen : List String) (x : String),
      x ∈ (parseAndFilterItemsGeneric getId items maxCount filters seen).2 ↔
        x ∈ seen ∨
          x ∈ ((parseAndFilterItemsGeneric getId items maxCount filters seen).1.map getId)
  | [], n, seen, x => by simp [parseAndFilterItemsGeneric]
  | item :: rest, 0, seen, x => by simp [parseAndFilterItemsGeneric]
  | item :: rest, n + 1, seen, x => by
    unfold parseAndFilterItemsGeneric
    split
    · exact parse_seen_iff getId filters rest (n + 1) seen x
    · split
      · have ih := parse_seen_iff getId filters rest n (getId item :: seen) x
        simp only [List.mem_cons, List.map_cons] at ih ⊢
        rw [ih]
        tauto
      · exact parse_seen_iff getId filters rest (n + 1) seen x

theorem incLoop_seen_iff (getId : ι → String) (transform : ρ → ι) (remote : List ρ)
    (filters : List (ι → Bool)) (fetchLimit : Nat) :
    ∀ (fuel offset rem : Nat) (st : FetcherState) (x : String),
      x ∈ (fetchIncrementalLoop getId transform remote filters fetchLimit fuel offset
            rem st).2.seenItems ↔
        x ∈ st.seenItems ∨
          x ∈ ((fetchIncrementalLoop getId transform remote filters fetchLimit fuel offset
            rem st).1.map getId)
  | 0, offset, rem, st, x => by simp [fetchIncrementalLoop]
  | fuel + 1, offset, 0, st, x => by simp [fetchIncrementalLoop]
  | fuel + 1, offset, rem + 1, st, x => by
    simp only [fetchIncrementalLoop]
    split
    · simp
    · split
      · exact parse_seen_iff getId filters _ _ _ x
      · have ih := incLoop_seen_iff getId transform remote filters fetchLimit fuel
          (offset + fetchLimit)
          (rem + 1 - (parseAndFilterItemsGeneric getId
            ((page remote offset fetchLimit).map transform) (rem + 1) filters
            st.seenItems).1.length)
          { st with seenItems := (parseAndFilterItemsGeneric getId
              ((page remote offset fetchLimit).map transform) (rem + 1) filters
              st.seenItems).2 } x
        have hp := parse_seen_iff getId filters
          ((page remote offset fetchLimit).map transform) (rem + 1) st.seenItems x
        simp only [List.map_append, List.mem_append] at ih ⊢
        rw [ih, hp]
        tauto

theorem fetchPaginatedData_seen_iff (getId : ι → String) (transform : ρ → ι)
    (remote : List ρ) (fuel targetCount : Nat) (apiLimit : Option Nat)
    (filters : List (ι → Bool)) (sortFns : List (ι → ι → Int)) (st : FetcherState)
    (x : String) :
    x ∈ (fetchPaginatedData getId transform remote fuel targetCount apiLimit filters
          sortFns st).2.seenItems ↔
      x ∈ st.seenItems ∨
        x ∈ ((fetchPaginatedData getId transform remote fuel targetCount apiLimit filters
          sortFns st).1.map getId) := by
  unfold fetchPaginatedData
  split
  · unfold fetchAllAndSort
    exact parse_seen_iff getId filters _ _ _ x
  · exact incLoop_seen_iff getId transform remote filters _ fuel 0 targetCount st x

theorem runFetches_seen_iff (getId : ι → String) (transform : ρ → ι) :
    ∀ (reqs : List (FetchReq ρ ι)) (st : FetcherState) (x : String),
      x ∈ (runFetches getId transform reqs st).2.seenItems ↔
        x ∈ st.seenItems ∨ x ∈ ((runFetches getId transform reqs st).1.map getId)
  | [], st, x => by simp [runFetches]
  | r :: rs, st, x => by
    unfold runFetches
    have ih := runFetches_seen_iff getId transform rs
      (fetchPaginatedData getId transform r.remote r.fuel r.targetCount r.apiLimit
        r.filters r.sortFns st).2 x
    have hf := fetchPaginatedData_seen_iff getId transform r.remote r.fuel r.targetCount
      r.apiLimit r.filters r.sortFns st x
    simp only [List.map_append, List.mem_append] at ih ⊢
    rw [ih, hf]
    tauto

theorem admit_spec (getId : ι → String) (st : FetcherState) (item : ι) :
    admitItem getId st item =
      if getId item ∈ st.seenItems then (false, st)
      else (true, { st with seenItems := getId item :: st.seenItems }) := by
  unfold admitItem parseAndFilterItemsGeneric
  split
  · simp [parseAndFilterItemsGeneric]
  · simp [parseAndFilterItemsGeneric, passesFiltersGeneric]

theorem runAdmits_seen_iff (getId : ι → String) :
    ∀ (items : List ι) (st : FetcherState) (x : String),
      x ∈ (runAdmits getId st items).seenItems ↔
        x ∈ st.seenItems ∨ x ∈ items.map getId
  | [], st, x => by simp [runAdmits]
  | it :: rest, st, x => by
    have hrun : runAdmits getId st (it :: rest) = runAdmits getId (admitItem getId st it).2 rest :=
      rfl
    rw [hrun, runAdmits_seen_iff getId rest (admitItem getId st it).2 x, admit_spec]
    split
    · rename_i hseen
      simp only [List.map_cons, List.mem_cons]
      constructor
      · tauto
      · rintro (h | h | h)
        · tauto
        · subst h; tauto
        · tauto
    · simp only [List.map_cons, List.mem_cons]
      tauto

end Lemmas

/-- C10: invariant kept by every fetch operation — starting from a reset
(clearSeenItems) state, after any sequence of fetchPaginatedData calls
the seen set of the deduplicator holds exactly the ids of the records
returned to the caller: an id is marked seen only when its record passed
every active filter and was included in a returned batch, so a record
skipped for failing a filter or discarded when the target count was
reached is not marked seen and remains admittable later. -/
theorem c10_seen_set_invariant {ι ρ : Type} (getId : ι → String) (transform : ρ → ι)
    (reqs : List (FetchReq ρ ι)) (st0 : FetcherState) (x : String) :
    x ∈ (runFetches getId transform reqs (clearSeenItems st0)).2.seenItems ↔
      x ∈ ((runFetches getId transform reqs (clearSeenItems st0)).1.map getId) := by
  rw [runFetches_seen_iff]
  simp [clearSeenItems]

/-- C5: the deduplicator distilled from parseAndFilterItemsGeneric —
an admit returns true exactly when the id is unseen, it marks the id seen,
an admit of a seen id leaves the state unchanged, and after reset
(clearSeenItems) every id is admittable again; in particular, after any
sequence of admits from a reset state, admitting an item succeeds
exactly when its id was not admitted in the sequence. -/
theorem c5_admit_dedup {ι : Type} (getId : ι → String) (st : FetcherState) (item : ι) :
    ((admitItem getId st item).1 = true ↔ getId item ∉ st.seenItems)
    ∧ getId item ∈ (admitItem getId st item).2.seenItems
    ∧ (getId item ∈ st.seenItems → (admitItem getId st item).2 = st)
    ∧ (admitItem getId (clearSeenItems st) item).1 = true
    ∧ (∀ prior : List ι,
        ((admitItem getId (runAdmits getId (clearSeenItems st) prior) item).1 = true ↔
          getId item ∉ prior.map getId)) := by
  refine ⟨?_, ?_, ?_, ?_, ?_⟩
  · rw [admit_spec]
    split <;> simp_all
  · rw [admit_spec]
    split <;> simp_all
  · intro h
    rw [admit_spec, if_pos h]
  · rw [admit_spec]
    simp [clearSeenItems]
  · intro prior
    rw [admit_spec]
    have h := runAdmits_seen_iff getId prior (clearSeenItems st) (getId item)
    rw [show (clearSeenItems st).seenItems = [] from rfl] at h
    simp only [List.not_mem_nil, false_or] at h
    split <;> rename_i hs
    · rw [h] at hs
      simp [hs]
    · rw [h] at hs
      simp [hs]

theorem collectAllPages_collects {ι ρ : Type} (transform : ρ → ι) (remote : List ρ)
    (fetchLimit : Nat) (hL : 1 ≤ fetchLimit) :
    ∀ (fuel offset : Nat) (acc : List ι) (hm : Bool),
      1 ≤ fuel → remote.length + 1 ≤ fuel + offset →
      collectAllPages remote transform fetchLimit fuel offset acc hm =
        (acc ++ (remote.drop offset).map transform, false)
  | 0, offset, acc, hm => by omega
  | fuel + 1, offset, acc, hm => by
    intro _ h2
    simp only [collectAllPages]
    have hplen : ((page remote offset fetchLimit).map transform).length =
        min fetchLimit (remote.length - offset) := by
      simp [page]
    split
    · rename_i hlen
      rw [hplen] at hlen
      have hoff : remote.length ≤ offset := by omega
      rw [List.drop_eq_nil_of_le hoff]
      simp
    · split
      · rename_i hlen hshort
        rw [hplen] at hshort
        have hall : (remote.drop offset).length ≤ fetchLimit := by
          rw [List.length_drop]
          omega
        simp [page, List.take_of_length_le hall]
      · rename_i hlen hshort
        rw [hplen] at hshort
        have hfull : fetchLimit ≤ remote.length - offset := by omega
        rw [collectAllPages_collects transform remote fetchLimit hL fuel
          (offset + fetchLimit) _ hm (by omega) (by omega)]
        simp only [page, List.append_assoc, ← List.map_append]
        have hsplit : (remote.drop offset).take fetchLimit ++ remote.drop (offset + fetchLimit) =
            remote.drop offset := by
          rw [show remote.drop (offset + fetchLimit) = (remote.drop offset).drop fetchLimit by
            rw [List.drop_drop, Nat.add_comm]]
          exact List.take_append_drop fetchLimit (remote.drop offset)
        rw [hsplit]

/-- C4: collect-all mode sort correctness — for the records with createdAt
values 3, 1, 2 and the descending created-date comparator chain of
sortKey "created" (first comparator decides, ties fall through), the
output order of fetchPaginatedData is 3, 2, 1 for every page size (every
way of splitting the records across page boundaries, including page
size 1 with three pages). -/
theorem c4_sort_correct (L fuel : Nat) (hL : 1 ≤ L) (hf : 4 ≤ fuel) :
    ((fetchPaginatedData (fun (c : Conversation) => c.id) (transformItem 100) c4Remote fuel
        100 (some L) [] (getSortFunctions "created")
        { seenItems := [], hasMore := true }).1.map (fun c => c.date)) = [3, 2, 1] := by
  have hL0 : ¬ L = 0 := by omega
  simp only [fetchPaginatedData, resolveFetchLimit]
  rw [if_neg hL0, if_pos (by decide : (getSortFunctions "created").length > 0)]
  simp only [fetchAllAndSort]
  have hlen : c4Remote.length = 3 := rfl
  rw [collectAllPages_collects (transformItem 100) c4Remote L hL fuel 0 [] true (by omega)
    (by omega)]
  decide

/-- C4 witness: the theorem instantiated at page size 1 (three pages of
one record each). -/
theorem c4_sort_correct_witness :
    (1 ≤ 1 ∧ 4 ≤ 4) ∧
      ((fetchPaginatedData (fun (c : Conversation) => c.id) (transformItem 100) c4Remote 4
          100 (some 1) [] (getSortFunctions "created")
          { seenItems := [], hasMore := true }).1.map (fun c => c.date)) = [3, 2, 1] :=
  ⟨⟨by decide, by decide⟩, c4_sort_correct 1 4 (by decide) (by decide)⟩

/-- C6: end-to-end incremental scenario — with batch size 20 against a
45-record source and no sort comparators, after start() issues the first
loadMore and three further loadMore calls run to completion the
Collection holds exactly 45 records with no duplicate ids and
hasMoreItems reports false; moreover the incremental loop stops as soon
as the remaining target count reaches zero. -/
theorem c6_end_to_end :
    (run c6Remote 1000000 c6Trace c6Start).conversations.length = 45
    ∧ ((run c6Remote 1000000 c6Trace c6Start).conversations.map Prod.fst).Nodup
    ∧ hasMoreItems (run c6Remote 1000000 c6Trace c6Start).fetcher = false
    ∧ ∀ (fuel offset : Nat) (st : FetcherState),
        fetchIncrementalLoop (fun (c : Conversation) => c.id) (transformItem 1000000) c6Remote
          [] 20 (fuel + 1) offset 0 st = ([], st) :=
  ⟨by decide, by decide, by decide, fun _ _ _ => rfl⟩

theorem setAdd_mem (s : List String) (y x : String) : x ∈ setAdd s y ↔ x ∈ s ∨ x = y := by
  unfold setAdd
  split
  · rename_i h
    constructor
    · tauto
    · rintro (hx | rfl)
      · exact hx
      · exact h
  · simp [List.mem_append]

theorem foldl_setAdd_mem :
    ∀ (l : List Conversation) (acc : List String) (x : String),
      x ∈ l.foldl (fun s c => setAdd s c.id) acc ↔ x ∈ acc ∨ x ∈ l.map (fun c => c.id)
  | [], acc, x => by simp
  | c :: rest, acc, x => by
    simp only [List.foldl_cons, List.map_cons, List.mem_cons]
    rw [foldl_setAdd_mem rest (setAdd acc c.id) x, setAdd_mem]
    tauto

/-- C7: selection is scoped to the searched view — selectAllConversations
makes the selection hold exactly the ids of the current searched view
(not the full Collection), and areAllConversationsSelected is true iff
the current view is non-empty and every id in it is selected; in the
concrete scenario where the search term narrows ten records to two,
select-all selects exactly those two. -/
theorem c7_selection_scoping (st : MgrState) :
    (∀ x, x ∈ (selectAllConversations st).selectedConversations ↔
        x ∈ (searchConversations st st.currentSearchTerm).map (fun c => c.id))
    ∧ (areAllConversationsSelected st = true ↔
        (searchConversations st st.currentSearchTerm ≠ [] ∧
          ∀ c ∈ searchConversations st st.currentSearchTerm,
            c.id ∈ st.selectedConversations))
    ∧ (selectAllConversations c7State).selectedConversations = ["abc0", "abc1"]
    ∧ areAllConversationsSelected (selectAllConversations c7State) = true
    ∧ c7State.conversations.length = 10
    ∧ (searchConversations c7State c7State.currentSearchTerm).length = 2 := by
  refine ⟨?_, ?_, by decide, by decide, by decide, by decide⟩
  · intro x
    unfold selectAllConversations
    simp only
    rw [foldl_setAdd_mem]
    simp
  · unfold areAllConversationsSelected
    simp only [Bool.and_eq_true, decide_eq_true_eq, List.all_eq_true, decide_eq_true_eq,
      gt_iff_lt, List.length_pos]

theorem sortedInsert_perm {ι : Type} (cmp : ι → ι → Int) (x : ι) :
    ∀ l : List ι, (sortedInsert cmp x l).Perm (x :: l)
  | [] => List.Perm.refl _
  | y :: ys => by
    unfold sortedInsert
    split
    · exact List.Perm.refl _
    · exact ((sortedInsert_perm cmp x ys).cons y).trans (List.Perm.swap x y ys)

theorem stableSort_perm {ι : Type} (cmp : ι → ι → Int) :
    ∀ l : List ι, (stableSort cmp l).Perm l
  | [] => List.Perm.refl _
  | x :: xs => by
    have h : stableSort cmp (x :: xs) = sortedInsert cmp x (stableSort cmp xs) := rfl
    rw [h]
    exact (sortedInsert_perm cmp x _).trans ((stableSort_perm cmp xs).cons x)

theorem mapSetC_pair_mem (m : List (String × Conversation)) (c : Conversation) :
    (c.id, c) ∈ mapSetC m c := by
  unfold mapSetC
  split
  · rename_i h
    obtain ⟨p, hp, hpk⟩ := List.mem_map.1 h
    exact List.mem_map.2 ⟨p, hp, by simp [hpk]⟩
  · simp

theorem mapSetC_keep (m : List (String × Conversation)) (c : Conversation) (k : String)
    (v : Conversation) (hv : (k, v) ∈ m) (hid : v.id = k) :
    ∃ v', (k, v') ∈ mapSetC m c ∧ v'.id = k := by
  unfold mapSetC
  split
  · by_cases hk : k = c.id
    · subst hk
      exact ⟨c, List.mem_map.2 ⟨(c.id, v), hv, by simp⟩, rfl⟩
    · exact ⟨v, List.mem_map.2 ⟨(k, v), hv, by simp [hk]⟩, hid⟩
  · exact ⟨v, List.mem_append.2 (Or.inl hv), hid⟩

theorem merge_entry :
    ∀ (l : List Conversation) (m : List (String × Conversation)) (k : String),
      ((∃ v, (k, v) ∈ m ∧ v.id = k) ∨ k ∈ l.map (fun c => c.id)) →
      ∃ v, (k, v) ∈ mergeConversations m l ∧ v.id = k
  | [], m, k => by
    rintro (⟨v, hv, hid⟩ | h)
    · exact ⟨v, hv, hid⟩
    · simp at h
  | c :: rest, m, k => by
    have hstep : mergeConversations m (c :: rest) = mergeConversations (mapSetC m c) rest := rfl
    rintro (⟨v, hv, hid⟩ | h)
    · rw [hstep]
      exact merge_entry rest (mapSetC m c) k (Or.inl (mapSetC_keep m c k v hv hid))
    · rw [hstep]
      simp only [List.map_cons, List.mem_cons] at h
      rcases h with h | h
      · subst h
        exact merge_entry rest (mapSetC m c) c.id (Or.inl ⟨c, mapSetC_pair_mem m c, rfl⟩)
      · exact merge_entry rest (mapSetC m c) k (Or.inr h)

theorem sortConversations_key_mem (st : MgrState) (k : String)
    (h : ∃ v, (k, v) ∈ st.conversations ∧ v.id = k) :
    k ∈ (sortConversationsFn st).conversations.map Prod.fst := by
  obtain ⟨v, hv, hid⟩ := h
  unfold sortConversationsFn
  simp only
  have hvmem : v ∈ st.conversations.map Prod.snd := List.mem_map.2 ⟨(k, v), hv, rfl⟩
  have hks : k ∈ (stableSort (chainCmp (getSortFunctions st.sortBy))
      (st.conversations.map Prod.snd)).map (fun c => c.id) :=
    ((stableSort_perm (chainCmp (getSortFunctions st.sortBy))
        (st.conversations.map Prod.snd)).map (fun c : Conversation => c.id)).mem_iff.2
      (List.mem_map.2 ⟨v, hvmem, hid⟩)
  obtain ⟨v', hv', _⟩ := merge_entry _ [] k (Or.inr hks)
  exact List.mem_map.2 ⟨(k, v'), hv', rfl⟩

theorem merge_nil_eq :
    ∀ (l : List Conversation) (m : List (String × Conversation)),
      (∀ c ∈ l, c.id ∉ m.map Prod.fst) → (l.map (fun c => c.id)).Nodup →
      mergeConversations m l = m ++ l.map (fun c => (c.id, c))
  | [], m, _, _ => by simp [mergeConversations]
  | c :: rest, m, hdis, hnd => by
    have hstep : mergeConversations m (c :: rest) = mergeConversations (mapSetC m c) rest := rfl
    have hcnot : c.id ∉ m.map Prod.fst := hdis c (by simp)
    have hset : mapSetC m c = m ++ [(c.id, c)] := by
      unfold mapSetC
      rw [if_neg hcnot]
    simp only [List.map_cons, List.nodup_cons] at hnd
    rw [hstep, hset, merge_nil_eq rest (m ++ [(c.id, c)]) ?_ hnd.2]
    · simp
    · intro c' hc'
      simp only [List.map_append, List.mem_append, List.map_cons, List.map_nil,
        List.mem_singleton]
      rintro (hin | hin)
      · exact hdis c' (by simp [hc']) hin
      · exact hnd.1 (hin ▸ List.mem_map.2 ⟨c', hc', rfl⟩)

/-- C8 counterexample: in a state with one loaded record and no recent
refresh, changing only the sort key through the handler the sort UI
invokes (setSortBy) issues a network fetch orchestration (fetchCount
rises from 0 to 1) and clears the Collection for the refetch, and the
effective fetch-settings sort key is not even updated — contradicting
the claim that only a local re-sort happens with no network fetch. -/
theorem c8_counterexample :
    (setSortByCall 10000 "name" c8State).fetchCount = 1
    ∧ c8State.fetchCount = 0
    ∧ (setSortByCall 10000 "name" c8State).conversations = []
    ∧ c8State.conversations.length = 1
    ∧ (setSortByCall 10000 "name" c8State).sortBy = "created" := by
  refine ⟨by decide, by decide, by decide, by decide, by decide⟩

/-- C8 (amended): changing the sort key via setSortBy (the path the sort
UI takes) triggers a full refresh — outside the debounce window a fetch
orchestration is issued at once and the Collection is cleared — while
leaving the effective fetch-settings sort key unchanged; the local-only
re-sort described by the claim is what updateSortBy does: it issues no
fetch, keeps the pending state, sets the sort key, and only permutes
the stored records. -/
theorem c8_amended (st : MgrState) (now : Nat) (v : String)
    (hload : st.isLoading = false)
    (hwin : st.lastRefreshTime + debounceDelay ≤ now)
    (hkeys : ∀ p ∈ st.conversations, p.1 = p.2.id)
    (hnodup : (st.conversations.map Prod.fst).Nodup) :
    ((setSortByCall now v st).fetchCount = st.fetchCount + 1
      ∧ (setSortByCall now v st).sortBy = st.sortBy
      ∧ (setSortByCall now v st).conversations = [])
    ∧ ((updateSortByFn v st).fetchCount = st.fetchCount
      ∧ (updateSortByFn v st).pending = st.pending
      ∧ (updateSortByFn v st).isLoading = st.isLoading
      ∧ (updateSortByFn v st).sortBy = v
      ∧ (updateSortByFn v st).conversations.Perm st.conversations) := by
  constructor
  · have hnd : ¬ (now - st.lastRefreshTime < debounceDelay) := by omega
    unfold setSortByCall refreshCall
    simp only
    rw [if_neg (by simpa using hnd)]
    unfold performRefreshStart
    simp only
    rw [if_neg (by simpa using hload)]
    simp [clearStateFn]
  · have hids : st.conversations.map (fun p => p.2.id) = st.conversations.map Prod.fst :=
      List.map_congr_left (fun p hp => (hkeys p hp).symm)
    unfold updateSortByFn
    simp only
    split
    · unfold sortConversationsFn
      refine ⟨rfl, rfl, rfl, rfl, ?_⟩
      simp only
      have hperm := stableSort_perm (chainCmp (getSortFunctions v))
        (st.conversations.map Prod.snd)
      have hsortnd : ((stableSort (chainCmp (getSortFunctions v))
          (st.conversations.map Prod.snd)).map (fun c => c.id)).Nodup := by
        rw [(hperm.map (fun c : Conversation => c.id)).nodup_iff]
        rw [show (st.conversations.map Prod.snd).map (fun c : Conversation => c.id) =
            st.conversations.map (fun p => p.2.id) by rw [List.map_map]; rfl]
        rw [hids]
        exact hnodup
      rw [merge_nil_eq _ [] (by simp) hsortnd, List.nil_append]
      have hfinal : (st.conversations.map Prod.snd).map
          (fun c : Conversation => (c.id, c)) = st.conversations := by
        rw [List.map_map]
        have hpt : ∀ p ∈ st.conversations,
            ((fun c : Conversation => (c.id, c)) ∘ Prod.snd) p = id p := by
          intro p hp
          simp only [Function.comp_apply, id_eq, ← hkeys p hp]
        rw [List.map_congr_left hpt, List.map_id]
      have hlast : ((st.conversations.map Prod.snd).map
          (fun c : Conversation => (c.id, c))).Perm st.conversations := by
        rw [hfinal]
      exact (hperm.map (fun c : Conversation => (c.id, c))).trans hlast
    · exact ⟨rfl, rfl, rfl, rfl, List.Perm.refl _⟩

/-- C8 witness: the amended theorem instantiated at a concrete two-record
state. -/
theorem c8_amended_witness :
    (updateSortByFn "name" c8WitnessState).fetchCount = c8WitnessState.fetchCount
    ∧ (updateSortByFn "name" c8WitnessState).conversations.Perm
        c8WitnessState.conversations :=
  ⟨(c8_amended c8WitnessState 10000 "name" (by decide) (by decide)
      (by decide) (by decide)).2.1,
   (c8_amended c8WitnessState 10000 "name" (by decide) (by decide)
      (by decide) (by decide)).2.2.2.2.2⟩

/-- C9 counterexample: archiving a record that is already archived leaves
its status "archived" — the field is set, not flipped (a flip would
have made it active). -/
theorem c9_counterexample :
    ((archiveConversations (fun _ => true) ["A"] c9State).1.conversations.map
        (fun p => p.2.status)) = ["archived"]
    ∧ (c9State.conversations.map (fun p => p.2.status)) = ["archived"]
    ∧ ("archived" : String) ≠ "active" := by
  refine ⟨by decide, by decide, by decide⟩

/-- C9 (amended): archive, on full success of the remote calls, sets the
status of exactly the records whose ids are targeted to archived
(leaving every other field of those records and every other record
unchanged), never removes an entry from the Collection (the key list is
unchanged), and removes the targeted ids from the SelectionSet (those
that name a loaded record). -/
theorem c9_amended (remoteOk : String → Bool) (ids : List String) (st : MgrState)
    (h : ids.all remoteOk = true) :
    ((archiveConversations remoteOk ids st).1.conversations.map Prod.fst =
        st.conversations.map Prod.fst)
    ∧ (∀ k c, (k, c) ∈ st.conversations → c.id ∈ ids →
        (k, { c with status := "archived" }) ∈
          (archiveConversations remoteOk ids st).1.conversations)
    ∧ (∀ k c, (k, c) ∈ st.conversations → c.id ∉ ids →
        (k, c) ∈ (archiveConversations remoteOk ids st).1.conversations)
    ∧ (∀ s, s ∈ (archiveConversations remoteOk ids st).1.selectedConversations ↔
        (s ∈ st.selectedConversations ∧
          ¬(s ∈ ids ∧ s ∈ st.conversations.map (fun p => p.2.id))))
    ∧ (archiveConversations remoteOk ids st).2.ok = true := by
  unfold archiveConversations
  rw [if_pos h]
  refine ⟨?_, ?_, ?_, ?_, rfl⟩
  · simp only [List.map_map]
    apply List.map_congr_left
    intro p _
    by_cases hc : p.2.id ∈ ids <;> simp [hc]
  · intro k c hm hid
    refine List.mem_map.2 ⟨(k, c), hm, ?_⟩
    simp [hid]
  · intro k c hm hid
    refine List.mem_map.2 ⟨(k, c), hm, ?_⟩
    simp [hid]
  · intro s
    simp only [List.mem_filter, decide_eq_true_eq]

/-- C9 witness: the amended theorem instantiated at a concrete state with
one active and one archived record. -/
theorem c9_amended_witness :
    (archiveConversations (fun _ => true) ["Z"] c9WitnessState).1.conversations.map Prod.fst =
      c9WitnessState.conversations.map Prod.fst
    ∧ (archiveConversations (fun _ => true) ["Z"] c9WitnessState).2.ok = true :=
  ⟨(c9_amended (fun _ => true) ["Z"] c9WitnessState (by decide)).1,
   (c9_amended (fun _ => true) ["Z"] c9WitnessState (by decide)).2.2.2.2⟩

/-- C2 counterexample: for delete of A, B, C where the remote call for B
fails, the Collection afterwards still contains A and C (nothing is
removed locally), the reported toast is the generic failure message
(it does not name B), and the remote call for C is never attempted —
contradicting the claim that A and C are removed and B is reported. -/
theorem c2_counterexample :
    "A" ∈ ((deleteConversations c2RemoteOk ["A", "B", "C"]
        c2State).1.conversations.map Prod.fst)
    ∧ "C" ∈ ((deleteConversations c2RemoteOk ["A", "B", "C"]
        c2State).1.conversations.map Prod.fst)
    ∧ (deleteConversations c2RemoteOk ["A", "B", "C"] c2State).2.toast =
        "Failed to delete conversations"
    ∧ (deleteConversations c2RemoteOk ["A", "B", "C"] c2State).2.attempted = ["A", "B"]
    ∧ c2RemoteOk "B" = false ∧ c2RemoteOk "A" = true ∧ c2RemoteOk "C" = true := by
  refine ⟨by decide, by decide, by decide, by decide, by decide, by decide, by decide⟩

theorem attemptCalls_take (remoteOk : String → Bool) :
    ∀ ids : List String,
      attemptCalls remoteOk ids = ids.take (attemptCalls remoteOk ids).length
  | [] => rfl
  | i :: rest => by
    unfold attemptCalls
    split
    · simp only [List.length_cons, List.take_succ_cons]
      exact congrArg (i :: ·) (attemptCalls_take remoteOk rest)
    · rfl

theorem attemptCalls_last_fails (remoteOk : String → Bool) :
    ∀ ids : List String, ids.all remoteOk = false →
      ∃ b, (attemptCalls remoteOk ids).getLast? = some b ∧ remoteOk b = false
  | [], h => by simp at h
  | i :: rest, h => by
    unfold attemptCalls
    split
    · rename_i hfi
      have hrest : rest.all remoteOk = false := by
        simp only [List.all_cons, hfi, Bool.true_and] at h
        exact h
      obtain ⟨b, hb, hbf⟩ := attemptCalls_last_fails remoteOk rest hrest
      refine ⟨b, ?_, hbf⟩
      obtain ⟨c, cs, hcs⟩ :=
        List.exists_cons_of_ne_nil (l := attemptCalls remoteOk rest)
          (fun he => by rw [he] at hb; simp at hb)
      rw [hcs] at hb ⊢
      rw [List.getLast?_cons_cons]
      exact hb
    · rename_i hfi
      exact ⟨i, rfl, by simpa using hfi⟩

/-- C2 (amended): when any id in a bulk delete fails remotely, the
sequential loop aborts at the first failure: the remote calls actually
issued are exactly a prefix of the id list ending at the first failing
id (ids after it are never attempted), no local state changes at all —
the Collection keeps every record, including those whose remote calls
succeeded — and the reported toast is the generic failure message. -/
theorem c2_amended (remoteOk : String → Bool) (ids : List String) (st : MgrState)
    (h : ids.all remoteOk = false) :
    (deleteConversations remoteOk ids st).1 = st
    ∧ (deleteConversations remoteOk ids st).2.toast = "Failed to delete conversations"
    ∧ (deleteConversations remoteOk ids st).2.ok = false
    ∧ (deleteConversations remoteOk ids st).2.attempted =
        ids.take (deleteConversations remoteOk ids st).2.attempted.length
    ∧ ∃ b, (deleteConversations remoteOk ids st).2.attempted.getLast? = some b
        ∧ remoteOk b = false := by
  have hne : ¬ (ids.all remoteOk = true) := by simp [h]
  unfold deleteConversations
  rw [if_neg hne]
  exact ⟨rfl, rfl, rfl, attemptCalls_take remoteOk ids, attemptCalls_last_fails remoteOk ids h⟩

/-- C2 witness: the amended theorem instantiated at a concrete failing
bulk delete. -/
theorem c2_amended_witness :
    (["X"].all (fun _ => false) = false)
    ∧ (deleteConversations (fun _ => false) ["X"] (initState 1 "")).1 = initState 1 ""
    ∧ (deleteConversations (fun _ => false) ["X"] (initState 1 "")).2.toast =
        "Failed to delete conversations" :=
  ⟨by decide, (c2_amended (fun _ => false) ["X"] (initState 1 "") (by decide)).1,
   (c2_amended (fun _ => false) ["X"] (initState 1 "") (by decide)).2.1⟩

/-- C3 counterexample: three refresh calls at times 1000, 1050 and 1100
(within 100ms of each other) on a fresh manager produce TWO executed
refreshes, not one — the first call is outside the 500ms window of the
initial lastRefreshTime and executes immediately with the settings of
the FIRST call, and the coalesced timer then executes a second refresh
with the settings of the last call. -/
theorem c3_counterexample :
    (run [] 0 c3Trace c3State).executedRefreshes = [(1000, ["new"]), (1500, ["other"])]
    ∧ (run [] 0 c3Trace c3State).executedRefreshes.length ≠ 1 := by
  refine ⟨by decide, by decide⟩

/-- C3 (amended): when all three refresh calls fall inside the 500ms
debounce window of the previous refresh, they are coalesced: no refresh
executes at the calls — each call only resets the pending timer, whose
fire time stays lastRefreshTime + 500 — and when the timer fires with no
fetch in flight exactly one refresh executes, with the settings (active
filters) of the last of the three calls. -/
theorem c3_amended (st : MgrState) (t1 t2 t3 : Nat) (f1 f2 f3 : List String)
    (h1 : st.lastRefreshTime ≤ t1) (h12 : t1 ≤ t2) (h23 : t2 ≤ t3)
    (hwin : t3 < st.lastRefreshTime + debounceDelay)
    (hload : st.isLoading = false) :
    run [] 0 [MEvent.updFilters t1 f1, MEvent.updFilters t2 f2, MEvent.updFilters t3 f3] st =
      { st with activeFilters := f3,
                debounceTimeout := some (st.lastRefreshTime + debounceDelay) }
    ∧ (timerFire (st.lastRefreshTime + debounceDelay)
          (run [] 0 [MEvent.updFilters t1 f1, MEvent.updFilters t2 f2,
            MEvent.updFilters t3 f3] st)).executedRefreshes =
        st.executedRefreshes ++ [(st.lastRefreshTime + debounceDelay, f3)]
    ∧ (timerFire (st.lastRefreshTime + debounceDelay)
          (run [] 0 [MEvent.updFilters t1 f1, MEvent.updFilters t2 f2,
            MEvent.updFilters t3 f3] st)).fetchCount = st.fetchCount + 1 := by
  have e1 : step [] 0 st (MEvent.updFilters t1 f1) =
      { st with activeFilters := f1,
                debounceTimeout := some (st.lastRefreshTime + debounceDelay) } := by
    simp only [step, updateFiltersCall, refreshCall]
    rw [if_pos (show t1 - st.lastRefreshTime < debounceDelay by omega)]
  have e2 : step [] 0 ({ st with
        activeFilters := f1,
        debounceTimeout := some (st.lastRefreshTime + debounceDelay) })
      (MEvent.updFilters t2 f2) =
      { st with activeFilters := f2,
                debounceTimeout := some (st.lastRefreshTime + debounceDelay) } := by
    simp only [step, updateFiltersCall, refreshCall]
    rw [if_pos (show t2 - st.lastRefreshTime < debounceDelay by omega)]
  have e3 : step [] 0 ({ st with
        activeFilters := f2,
        debounceTimeout := some (st.lastRefreshTime + debounceDelay) })
      (MEvent.updFilters t3 f3) =
      { st with activeFilters := f3,
                debounceTimeout := some (st.lastRefreshTime + debounceDelay) } := by
    simp only [step, updateFiltersCall, refreshCall]
    rw [if_pos (show t3 - st.lastRefreshTime < debounceDelay by omega)]
  have hrun : run [] 0 [MEvent.updFilters t1 f1, MEvent.updFilters t2 f2,
      MEvent.updFilters t3 f3] st =
      { st with activeFilters := f3,
                debounceTimeout := some (st.lastRefreshTime + debounceDelay) } := by
    show step [] 0 (step [] 0 (step [] 0 st (MEvent.updFilters t1 f1))
      (MEvent.updFilters t2 f2)) (MEvent.updFilters t3 f3) = _
    rw [e1, e2, e3]
  refine ⟨hrun, ?_, ?_⟩ <;>
    rw [hrun] <;>
    simp [timerFire, performRefreshStart, clearStateFn, hload]

/-- C3 witness: the amended theorem instantiated at a fresh manager and
call times 100, 150, 200 (all inside the debounce window of
lastRefreshTime = 0). -/
theorem c3_amended_witness :
    run [] 0 [MEvent.updFilters 100 ["new"], MEvent.updFilters 150 ["updated"],
        MEvent.updFilters 200 ["other"]] c3WitnessState =
      { c3WitnessState with
          activeFilters := ["other"],
          debounceTimeout := some (c3WitnessState.lastRefreshTime + debounceDelay) }
    ∧ (timerFire (c3WitnessState.lastRefreshTime + debounceDelay)
          (run [] 0 [MEvent.updFilters 100 ["new"], MEvent.updFilters 150 ["updated"],
            MEvent.updFilters 200 ["other"]] c3WitnessState)).executedRefreshes =
        c3WitnessState.executedRefreshes ++
          [(c3WitnessState.lastRefreshTime + debounceDelay, ["other"])]
    ∧ (timerFire (c3WitnessState.lastRefreshTime + debounceDelay)
          (run [] 0 [MEvent.updFilters 100 ["new"], MEvent.updFilters 150 ["updated"],
            MEvent.updFilters 200 ["other"]] c3WitnessState)).fetchCount =
        c3WitnessState.fetchCount + 1 :=
  c3_amended c3WitnessState 100 150 200 ["new"] ["updated"] ["other"]
    (by decide) (by decide) (by decide) (by decide) (by decide)

/-- C1 counterexample: a refresh invoked while a previously issued
loadMore fetch is still pending does not supersede it — when the
earlier fetch completes, its results DO appear in the Collection (both
fetched record ids are present), no refresh ever executed, and only the
one loadMore fetch orchestration was issued. -/
theorem c1_counterexample :
    "c0" ∈ ((run c1Remote 1000000 [MEvent.loadMore, MEvent.refresh 10000, MEvent.complete]
        c1State).conversations.map Prod.fst)
    ∧ "c1" ∈ ((run c1Remote 1000000 [MEvent.loadMore, MEvent.refresh 10000, MEvent.complete]
        c1State).conversations.map Prod.fst)
    ∧ (run c1Remote 1000000 [MEvent.loadMore, MEvent.refresh 10000, MEvent.complete]
        c1State).executedRefreshes = []
    ∧ (run c1Remote 1000000 [MEvent.loadMore, MEvent.refresh 10000, MEvent.complete]
        c1State).fetchCount = 1 := by
  refine ⟨by decide, by decide, by decide, by decide⟩

theorem completeFetch_apply_loadMore (remote : List RawConversation) (tnow : Int)
    (s : MgrState) (fid : Nat)
    (hp : s.pending = some ⟨PendingKind.forLoadMore, fid⟩)
    (hc : s.currentFetchId = some fid) :
    (completeFetch remote tnow s).executedRefreshes = s.executedRefreshes
    ∧ ∀ c ∈ (fetchComputation remote tnow s).1,
        c.id ∈ (completeFetch remote tnow s).conversations.map Prod.fst := by
  unfold completeFetch
  rw [hp]
  simp only
  rw [if_pos hc]
  constructor
  · rfl
  · intro c hcmem
    apply sortConversations_key_mem
    exact merge_entry (fetchComputation remote tnow s).1 s.conversations c.id
      (Or.inr (List.mem_map.2 ⟨c, hcmem, rfl⟩))

/-- C1 (amended): if refresh() is invoked while a previously issued
loadMore() fetch is still pending, the refresh does not supersede it:
performRefresh is stopped by the isLoading guard (or only a debounce
timer is set), so no new fetch orchestration is issued, no refresh
executes, the pending loadMore session id stays current, and when the
earlier fetch completes its results ARE applied — every fetched record
id appears in the Collection. -/
theorem c1_amended (st : MgrState) (remote : List RawConversation) (tnow : Int)
    (now fid : Nat)
    (hload : st.isLoading = true)
    (hcur : st.currentFetchId = some fid)
    (hpend : st.pending = some ⟨PendingKind.forLoadMore, fid⟩) :
    (refreshCall now st).fetchCount = st.fetchCount
    ∧ (refreshCall now st).executedRefreshes = st.executedRefreshes
    ∧ (refreshCall now st).pending = st.pending
    ∧ (refreshCall now st).currentFetchId = st.currentFetchId
    ∧ (refreshCall now st).conversations = st.conversations
    ∧ (completeFetch remote tnow (refreshCall now st)).executedRefreshes =
        st.executedRefreshes
    ∧ ∀ c ∈ (fetchComputation remote tnow (refreshCall now st)).1,
        c.id ∈ (completeFetch remote tnow (refreshCall now st)).conversations.map
          Prod.fst := by
  have hbr : refreshCall now st =
      { st with debounceTimeout := some (st.lastRefreshTime + debounceDelay) } ∨
      refreshCall now st = { st with debounceTimeout := none, lastRefreshTime := now } := by
    unfold refreshCall performRefreshStart
    split
    · left
      rfl
    · right
      simp only
      rw [if_pos hload]
  have hp' : (refreshCall now st).pending = some ⟨PendingKind.forLoadMore, fid⟩ := by
    rcases hbr with hb | hb <;> rw [hb] <;> exact hpend
  have hc' : (refreshCall now st).currentFetchId = some fid := by
    rcases hbr with hb | hb <;> rw [hb] <;> exact hcur
  have hfirst : (refreshCall now st).fetchCount = st.fetchCount
      ∧ (refreshCall now st).executedRefreshes = st.executedRefreshes
      ∧ (refreshCall now st).pending = st.pending
      ∧ (refreshCall now st).currentFetchId = st.currentFetchId
      ∧ (refreshCall now st).conversations = st.conversations := by
    rcases hbr with hb | hb <;> rw [hb] <;> exact ⟨rfl, rfl, rfl, rfl, rfl⟩
  obtain ⟨ha, hm⟩ :=
    completeFetch_apply_loadMore remote tnow (refreshCall now st) fid hp' hc'
  exact ⟨hfirst.1, hfirst.2.1, hfirst.2.2.1, hfirst.2.2.2.1, hfirst.2.2.2.2,
    ha.trans hfirst.2.1, hm⟩

/-- C1 witness: the amended theorem instantiated at the concrete state
reached after loadMore issued its fetch, with the refresh arriving at
time 10000. -/
theorem c1_amended_witness :
    (refreshCall 10000 (loadMoreStart c1State)).fetchCount =
      (loadMoreStart c1State).fetchCount
    ∧ (refreshCall 10000 (loadMoreStart c1State)).executedRefreshes =
        (loadMoreStart c1State).executedRefreshes
    ∧ ∀ c ∈ (fetchComputation c1Remote 1000000 (refreshCall 10000 (loadMoreStart c1State))).1,
        c.id ∈ (completeFetch c1Remote 1000000
          (refreshCall 10000 (loadMoreStart c1State))).conversations.map Prod.fst :=
  ⟨(c1_amended (loadMoreStart c1State) c1Remote 1000000 10000 0
      (by decide) (by decide) (by decide)).1,
   (c1_amended (loadMoreStart c1State) c1Remote 1000000 10000 0
      (by decide) (by decide) (by decide)).2.1,
   (c1_amended (loadMoreStart c1State) c1Remote 1000000 10000 0
      (by decide) (by decide) (by decide)).2.2.2.2.2.2⟩

end ConvMgr
